import Mathlib

/-!
Verification development for the Signaler repository: a Rust launcher
(`src/launcher/src/main.rs`) that resolves a versioned engine manifest and
runs the engine, and a Tauri desktop shell (`src/app/src-tauri/src/main.rs`)
that supervises at most one engine run at a time, streams its output as
events, and keeps a bounded run history.

The Rust code is shallowly embedded: filesystem contents are an explicit
map from paths to optional file contents, environment variables and process
spawning results are explicit parameters, and the `serde_json` parsing used
by the code is modelled by an executable JSON parser over the fragment the
program exercises (null / booleans / integers / strings with basic escapes /
arrays / objects).  Mutex-guarded state is modelled as explicit state
passing of the sequential semantics (lock acquisition succeeds; lock
poisoning only arises after a panic, which is not modelled).
-/

/-- JSON values, mirroring `serde_json::Value` on the fragment the program
uses.  Numbers are modelled as integers (the program only ever handles
integer-valued numbers); object fields keep their textual order. -/
inductive Json where
  | null : Json
  | bool (b : Bool) : Json
  | num (n : Int) : Json
  | str (s : String) : Json
  | arr (items : List Json) : Json
  | obj (fields : List (String × Json)) : Json

/-- The opening-brace character, kept out of literals. -/
def obrace : Char := Char.ofNat 123

/-- The closing-brace character, kept out of literals. -/
def cbrace : Char := Char.ofNat 125

/-- Skip JSON insignificant whitespace. -/
def skipWs : List Char → List Char
  | [] => []
  | c :: cs => if c = ' ' ∨ c = '\t' ∨ c = '\n' ∨ c = '\r' then skipWs cs else c :: cs

/-- Parse the body of a JSON string after the opening quote, handling the
basic escapes; returns the decoded characters and the rest of the input. -/
def parseStringBody : List Char → Option (List Char × List Char)
  | [] => none
  | c :: cs =>
    if c = '"' then some ([], cs)
    else if c = '\\' then
      match cs with
      | [] => none
      | e :: cs2 =>
        let dec : Option Char :=
          if e = '"' then some '"'
          else if e = '\\' then some '\\'
          else if e = '/' then some '/'
          else if e = 'n' then some '\n'
          else if e = 't' then some '\t'
          else if e = 'r' then some '\r'
          else none
        match dec with
        | none => none
        | some ch =>
          match parseStringBody cs2 with
          | some (body, rest) => some (ch :: body, rest)
          | none => none
    else
      match parseStringBody cs with
      | some (body, rest) => some (c :: body, rest)
      | none => none

/-- Accumulate decimal digits into a natural number. -/
def digitsToNat (ds : List Char) : Nat :=
  ds.foldl (fun acc c => acc * 10 + (c.toNat - 48)) 0

/-- Parse a JSON integer (optional minus sign followed by digits). -/
def parseNumber (cs : List Char) : Option (Int × List Char) :=
  let (neg, cs1) :=
    match cs with
    | c :: rest => if c = '-' then (true, rest) else (false, cs)
    | [] => (false, cs)
  let ds := cs1.takeWhile Char.isDigit
  let rest := cs1.dropWhile Char.isDigit
  if ds = [] then none
  else
    let n : Int := Int.ofNat (digitsToNat ds)
    some (if neg then -n else n, rest)

/-- Match a literal character sequence at the head of the input. -/
def stripLit : List Char → List Char → Option (List Char)
  | [], cs => some cs
  | p :: ps, c :: cs => if c = p then stripLit ps cs else none
  | _ :: _, [] => none

mutual

/-- Fueled recursive-descent JSON value reader. -/
def parseValue : Nat → List Char → Option (Json × List Char)
  | 0, _ => none
  | Nat.succ fuel, cs0 =>
    match skipWs cs0 with
    | [] => none
    | c :: cs =>
      if c = '"' then
        match parseStringBody cs with
        | some (body, rest) => some (Json.str (String.mk body), rest)
        | none => none
      else if c = obrace then
        match parseFields fuel cs true with
        | some (fs, rest) => some (Json.obj fs, rest)
        | none => none
      else if c = '[' then
        match parseItems fuel cs true with
        | some (vs, rest) => some (Json.arr vs, rest)
        | none => none
      else if c = 't' then (stripLit ['r', 'u', 'e'] cs).map (fun rest => (Json.bool true, rest))
      else if c = 'f' then (stripLit ['a', 'l', 's', 'e'] cs).map (fun rest => (Json.bool false, rest))
      else if c = 'n' then (stripLit ['u', 'l', 'l'] cs).map (fun rest => (Json.null, rest))
      else (parseNumber (c :: cs)).map (fun p => (Json.num p.1, p.2))

/-- Fueled reader for the items of a JSON array after the opening bracket. -/
def parseItems : Nat → List Char → Bool → Option (List Json × List Char)
  | 0, _, _ => none
  | Nat.succ fuel, cs0, first =>
    match skipWs cs0 with
    | [] => none
    | c :: rest =>
      if first ∧ c = ']' then some ([], rest)
      else
        match parseValue fuel (c :: rest) with
        | none => none
        | some (v, cs1) =>
          match skipWs cs1 with
          | c2 :: cs2 =>
            if c2 = ',' then
              match parseItems fuel cs2 false with
              | some (vs, cs3) => some (v :: vs, cs3)
              | none => none
            else if c2 = ']' then some ([v], cs2)
            else none
          | [] => none

/-- Fueled reader for the fields of a JSON object after the opening brace. -/
def parseFields : Nat → List Char → Bool → Option (List (String × Json) × List Char)
  | 0, _, _ => none
  | Nat.succ fuel, cs0, first =>
    match skipWs cs0 with
    | [] => none
    | c :: rest =>
      if first ∧ c = cbrace then some ([], rest)
      else if c = '"' then
        match parseStringBody rest with
        | none => none
        | some (keyChars, cs1) =>
          match skipWs cs1 with
          | ':' :: cs2 =>
            match parseValue fuel cs2 with
            | none => none
            | some (v, cs3) =>
              match skipWs cs3 with
              | c2 :: cs4 =>
                if c2 = ',' then
                  match parseFields fuel cs4 false with
                  | some (fs, cs5) => some ((String.mk keyChars, v) :: fs, cs5)
                  | none => none
                else if c2 = cbrace then some ([(String.mk keyChars, v)], cs4)
                else none
              | [] => none
          | _ => none
      else none

end

/-- Parse a complete JSON document, mirroring `serde_json::from_str::<Value>`:
the whole input must be consumed apart from trailing whitespace. -/
def Json.parse (s : String) : Option Json :=
  match parseValue (2 * s.length + 2) s.data with
  | some (v, rest) => if skipWs rest = [] then some v else none
  | none => none

/-- Trim, mirroring Rust's `str::trim` on the line strings the app handles
(whitespace restricted to the ASCII whitespace the program encounters). -/
def rustTrim (s : String) : String :=
  String.mk (((s.data.dropWhile Char.isWhitespace).reverse.dropWhile Char.isWhitespace).reverse)

/-- One entry of the run history, mirroring `HistoryEntry` in
`src/app/src-tauri/src/main.rs`. -/
structure HistoryEntry where
  id : String
  createdAt : String
  mode : String
  target : String
  outputDir : String
deriving Repr, DecidableEq

/-- The contents of `history.json`, modelled at the level the program
observes them: `read_to_string(..).ok()` and the `serde_json` round trip
make the file either missing, unreadable-or-corrupt, or a stored entry
list. -/
inductive HistoryDisk where
  | missing : HistoryDisk
  | corrupt : HistoryDisk
  | stored (entries : List HistoryEntry) : HistoryDisk
deriving Repr, DecidableEq

/-- The Tauri-managed state of the desktop app: the mutex-guarded child
slot (a child process handle modelled by its id), the last output
directory, the in-memory history list, and the on-disk history document. -/
structure AppState where
  childSlot : Option Nat
  lastOutputDir : Option String
  history : List HistoryEntry
  historyDisk : HistoryDisk
deriving Repr, DecidableEq

/-- Events received from the sidecar process channel, mirroring
`tauri_plugin_shell::process::CommandEvent`; payload bytes are modelled
after the lossy UTF-8 decoding the code applies. -/
inductive CommandEvent where
  | stdout (line : String) : CommandEvent
  | stderr (line : String) : CommandEvent
  | terminated : CommandEvent
  | other : CommandEvent
deriving Repr, DecidableEq

/-- The synthetic terminal event object the reader emits on child
termination. -/
def terminatedEvent : Json :=
  Json.obj [("type", Json.str "launcher_terminated")]

/-- One step of the reader loop body in `start_run`: the payloads emitted
for one channel event (each payload is passed to `emit`, whose result the
code discards), and whether the loop breaks. -/
def processEvent : CommandEvent → List Json × Bool
  | CommandEvent.stdout b =>
    let line := rustTrim b
    (if line = "" then []
     else
       match Json.parse line with
       | some json => [json]
       | none => [Json.str line], false)
  | CommandEvent.stderr b =>
    let line := rustTrim b
    ((if line = "" then [] else [Json.str line]), false)
  | CommandEvent.terminated => ([terminatedEvent], true)
  | CommandEvent.other => ([], false)

/-- The reader loop of the spawned task in `start_run`, over the sequence
of events the channel delivers: collects the emitted payloads, stopping at
the first terminating event. -/
def readerLoop : List CommandEvent → List Json
  | [] => []
  | e :: rest =>
    if (processEvent e).2 then (processEvent e).1
    else (processEvent e).1 ++ readerLoop rest

/-- The whole spawned reader task: run the loop, then clear the guarded
child slot (the code does this unconditionally after the loop). -/
def readerTask (st : AppState) (events : List CommandEvent) : List Json × AppState :=
  (readerLoop events, { st with childSlot := none })

/-- The successful result of `start_run`. -/
structure StartRunResult where
  outputDir : String
deriving Repr, DecidableEq

/-- The engine configuration synthesized for url-mode runs, mirroring
`ApexConfig`. -/
structure ApexPageConfig where
  path : String
  label : String
  devices : List String
deriving Repr, DecidableEq

/-- The top level of the synthesized url-mode configuration document. -/
structure ApexConfig where
  baseUrl : String
  pages : List ApexPageConfig
  warmUp : Bool
  incremental : Bool
  parallel : Nat
  throttlingMethod : String
  cpuSlowdownMultiplier : Nat
deriving Repr, DecidableEq

/-- The fixed-shape configuration `write_url_mode_config` produces,
parameterized only by the base URL (`DEFAULT_DEVICES` inlined). -/
def apexConfigFor (baseUrl : String) : ApexConfig :=
  { baseUrl := baseUrl
    pages := [{ path := "/", label := "home", devices := ["mobile", "desktop"] }]
    warmUp := false
    incremental := false
    parallel := 1
    throttlingMethod := "simulate"
    cpuSlowdownMultiplier := 4 }

/-- The host environment and effect outcomes of one `start_run` /
`cancel_run` invocation: the app-data directory (which may be unavailable,
as `app_data_dir()` is fallible), the temp-directory fallback, the two
time-derived ids the code draws (one inside `resolve_default_output_dir`,
one for the history entry), the timestamp, and the success of each
fallible external step. -/
structure RunEnv where
  appDataDir : Option String
  tempDir : String
  outDirId : String
  entryId : String
  nowMs : String
  historyWriteOk : Bool
  configWriteOk : Bool
  sidecarOk : Bool
  spawnOk : Bool
  childId : Nat
  killOk : Bool
deriving Repr, DecidableEq

/-- `resolve_default_output_dir`: `<app_data_dir or temp_dir>/runs/<id>`. -/
def resolve_default_output_dir (env : RunEnv) : String :=
  (env.appDataDir.getD env.tempDir) ++ "/runs/" ++ env.outDirId

/-- The list update performed by `persist_history_entry` on the guarded
history: insert at position 0, then truncate to 100 when longer. -/
def recordEntry (l : List HistoryEntry) (e : HistoryEntry) : List HistoryEntry :=
  let l2 := e :: l
  if l2.length > 100 then l2.take 100 else l2

/-- `persist_history_entry`: update the guarded in-memory list, then write
the full list to `history.json` (creating parent directories); a failing
disk write surfaces as an error after the in-memory update. -/
def persist_history_entry (writeOk : Bool) (st : AppState) (e : HistoryEntry) :
    Except String Unit × AppState :=
  let hist := recordEntry st.history e
  if writeOk then
    (Except.ok (), { st with history := hist, historyDisk := HistoryDisk.stored hist })
  else
    (Except.error "history write failed", { st with history := hist })

/-- `load_history`: read and parse `history.json`, `none` on any I/O or
parse failure. -/
def load_history (st : AppState) : Option (List HistoryEntry) :=
  match st.historyDisk with
  | HistoryDisk.stored l => some l
  | _ => none

/-- `list_history`: load from disk, adopt the loaded list only when the
guarded in-memory list is empty, and return the guarded list. -/
def list_history (st : AppState) : List HistoryEntry × AppState :=
  let loaded := (load_history st).getD []
  if st.history = [] then (loaded, { st with history := loaded })
  else (st.history, st)

/-- The externally visible side effects of one `start_run` call: the
argument vector of the spawned sidecar process, if one was spawned, and
the path and contents of the url-mode configuration file, if one was
written. -/
structure StartEffects where
  spawned : Option (List String)
  configWritten : Option (String × ApexConfig)
deriving Repr, DecidableEq

/-- `start_run` with no observable external effect. -/
def noEffects : StartEffects := { spawned := none, configWritten := none }

/-- The full outcome of a `start_run` call. -/
structure StartOutcome where
  result : Except String StartRunResult
  state : AppState
  effects : StartEffects

/-- The spawn phase of `start_run`: obtain the sidecar command, spawn it
with the built argument vector, and place the child handle in the guarded
slot. -/
def spawnPhase (env : RunEnv) (st : AppState) (outputDir : String) (args : List String)
    (cfg : Option (String × ApexConfig)) : StartOutcome :=
  if env.sidecarOk then
    if env.spawnOk then
      { result := Except.ok { outputDir := outputDir }
        state := { st with childSlot := some env.childId }
        effects := { spawned := some args, configWritten := cfg } }
    else
      { result := Except.error "spawn failed", state := st
        effects := { spawned := none, configWritten := cfg } }
  else
    { result := Except.error "sidecar not found", state := st
      effects := { spawned := none, configWritten := cfg } }

/-- `start_run(app, mode, value)`, following the code line by line: conflict
check on the guarded slot, output-directory computation, optimistic history
persistence, mode-dependent argument building (url-mode first synthesizing
`apex.config.json`), sidecar spawn, and placement of the child handle. -/
def start_run (env : RunEnv) (st : AppState) (mode value : String) : StartOutcome :=
  match st.childSlot with
  | some _ => { result := Except.error "run already in progress", state := st, effects := noEffects }
  | none =>
    let outputDir := resolve_default_output_dir env
    let st1 : AppState := { st with lastOutputDir := some outputDir }
    let entry : HistoryEntry :=
      { id := env.entryId, createdAt := env.nowMs, mode := mode, target := value, outputDir := outputDir }
    match persist_history_entry env.historyWriteOk st1 entry with
    | (Except.error e, st2) => { result := Except.error e, state := st2, effects := noEffects }
    | (Except.ok _, st2) =>
      if mode = "folder" then
        let args : List String :=
          ["run", "folder", "--engine-json", "--output-dir", outputDir, "--", "--root", value]
        spawnPhase env st2 outputDir args none
      else
        if env.configWriteOk then
          let configPath := outputDir ++ "/apex.config.json"
          let args : List String :=
            ["run", "audit", "--engine-json", "--output-dir", outputDir, "--", "--config", configPath]
          spawnPhase env st2 outputDir args (some (configPath, apexConfigFor value))
        else
          { result := Except.error "config write failed", state := st2, effects := noEffects }

/-- `cancel_run`: kill the child when the slot is occupied, then clear the
slot; an empty slot is written back as empty.  The third component records
the id of the child that was killed, if any. -/
def cancel_run (env : RunEnv) (st : AppState) : Except String Unit × AppState × Option Nat :=
  match st.childSlot with
  | some c =>
    if env.killOk then (Except.ok (), { st with childSlot := none }, some c)
    else (Except.error "kill failed", st, none)
  | none => (Except.ok (), { st with childSlot := none }, none)

/-- Filesystem paths, modelled as lists of components (joining a relative
name appends a component; `parent` drops the last component). -/
abbrev Fpath := List String

/-- `Path::parent`, in the component model. -/
def Fpath.parent (p : Fpath) : Option Fpath :=
  if p = [] then none else some p.dropLast

/-- A filesystem snapshot: contents of each path, `none` when the path does
not exist. -/
abbrev FS := Fpath → Option String

/-- `Path::exists` against a snapshot. -/
def fsExists (fs : FS) (p : Fpath) : Bool :=
  (fs p).isSome

/-- The launcher's host environment: platform flag, the environment
variables `resolve_cache_dir` consults, the temp-directory fallback, and
the current executable path. -/
structure LauncherEnv where
  isWindows : Bool
  localAppData : Option Fpath
  xdgCacheHome : Option Fpath
  home : Option Fpath
  tempDir : Fpath
  currentExe : Fpath

/-- `resolve_cache_dir`, following the cascade in the code: on Windows
`LOCALAPPDATA/signaler` when set; otherwise `XDG_CACHE_HOME/signaler`,
then `HOME/.cache/signaler`, then `<temp>/signaler`. -/
def resolve_cache_dir (env : LauncherEnv) : Fpath :=
  match env.isWindows, env.localAppData with
  | true, some lad => lad ++ ["signaler"]
  | _, _ =>
    match env.xdgCacheHome with
    | some xdg => xdg ++ ["signaler"]
    | none =>
      match env.home with
      | some h => h ++ [".cache", "signaler"]
      | none => env.tempDir ++ ["signaler"]

/-- `resolve_cached_engine_manifest_path`:
`<cache_dir>/engine/engine.manifest.json`. -/
def resolve_cached_engine_manifest_path (env : LauncherEnv) : Fpath :=
  resolve_cache_dir env ++ ["engine", "engine.manifest.json"]

/-- An engine manifest, mirroring `EngineManifest`. -/
structure EngineManifest where
  schemaVersion : Nat
  engineVersion : String
  minNode : String
  entry : String
  defaultOutputDirName : String
deriving Repr, DecidableEq

/-- Look up the first field with the given key in a JSON object. -/
def jlookup (fields : List (String × Json)) (key : String) : Option Json :=
  match fields with
  | [] => none
  | (k, v) :: rest => if k = key then some v else jlookup rest key

/-- Extract a JSON string. -/
def Json.asStr : Json → Option String
  | Json.str s => some s
  | _ => none

/-- Extract a JSON number as a `u32` the way serde does for the
`schemaVersion` field: a non-negative integer within range. -/
def Json.asU32 : Json → Option Nat
  | Json.num n => if 0 ≤ n ∧ n < 4294967296 then some n.toNat else none
  | _ => none

/-- Deserialization of `EngineManifestRaw`: a JSON object with all five
fields present and of the right type (mirroring serde's required-field
struct deserialization). -/
def parseManifest (raw : String) : Option EngineManifest :=
  match Json.parse raw with
  | some (Json.obj fields) =>
    match jlookup fields "schemaVersion", jlookup fields "engineVersion",
        jlookup fields "minNode", jlookup fields "entry",
        jlookup fields "defaultOutputDirName" with
    | some sv, some ev, some mn, some en, some dn =>
      match sv.asU32, ev.asStr, mn.asStr, en.asStr, dn.asStr with
      | some svn, some evs, some mns, some ens, some dns =>
        some { schemaVersion := svn, engineVersion := evs, minNode := mns,
               entry := ens, defaultOutputDirName := dns }
      | _, _, _, _, _ => none
    | _, _, _, _, _ => none
  | _ => none

/-- Errors of the launcher's resolution pipeline, one constructor per
`anyhow` failure site, carrying the data the message interpolates. -/
inductive LauncherErr where
  | readError (path : Fpath) : LauncherErr
  | parseError (path : Fpath) : LauncherErr
  | noLauncherDir : LauncherErr
  | notFound (searched : Fpath) : LauncherErr
  | unsupportedSchemaVersion (v : Nat) : LauncherErr
  | noParentDir : LauncherErr
  | entryNotFound (path : Fpath) : LauncherErr
deriving Repr, DecidableEq

/-- `read_engine_manifest`: read the file (an I/O error when it does not
exist), then parse it (a hard parse error when malformed). -/
def read_engine_manifest (fs : FS) (p : Fpath) : Except LauncherErr EngineManifest :=
  match fs p with
  | none => Except.error (LauncherErr.readError p)
  | some raw =>
    match parseManifest raw with
    | none => Except.error (LauncherErr.parseError p)
    | some m => Except.ok m

/-- A manifest resolution result, mirroring `EngineManifestInfo`. -/
structure EngineManifestInfo where
  manifestPath : Fpath
  manifest : EngineManifest
  fromCache : Bool
  cacheDir : Fpath
deriving Repr, DecidableEq

/-- `resolve_engine_manifest_info`: try the cached manifest, then the file
next to the launcher executable, then the same file one directory above;
each existing candidate is read and parsed (a parse failure is an error,
not a fall-through), and when no candidate exists the error names the
searched path next to the launcher. -/
def resolve_engine_manifest_info (env : LauncherEnv) (fs : FS) :
    Except LauncherErr EngineManifestInfo :=
  let cacheDir := resolve_cache_dir env
  let cached := resolve_cached_engine_manifest_path env
  if fsExists fs cached then
    (read_engine_manifest fs cached).map
      (fun m => { manifestPath := cached, manifest := m, fromCache := true, cacheDir := cacheDir })
  else
    match env.currentExe.parent with
    | none => Except.error LauncherErr.noLauncherDir
    | some exeDir =>
      let localPath := exeDir ++ ["engine.manifest.json"]
      if fsExists fs localPath then
        (read_engine_manifest fs localPath).map
          (fun m => { manifestPath := localPath, manifest := m, fromCache := false, cacheDir := cacheDir })
      else
        match exeDir.parent with
        | some grandDir =>
          let upPath := grandDir ++ ["engine.manifest.json"]
          if fsExists fs upPath then
            (read_engine_manifest fs upPath).map
              (fun m => { manifestPath := upPath, manifest := m, fromCache := false, cacheDir := cacheDir })
          else Except.error (LauncherErr.notFound localPath)
        | none => Except.error (LauncherErr.notFound localPath)

/-- `resolve_engine_entry_from_info`: reject unsupported schema versions,
join the manifest's own directory with the relative `entry` field, and
require the joined path to exist. -/
def resolve_engine_entry_from_info (fs : FS) (info : EngineManifestInfo) :
    Except LauncherErr Fpath :=
  if info.manifest.schemaVersion ≠ 1 then
    Except.error (LauncherErr.unsupportedSchemaVersion info.manifest.schemaVersion)
  else
    match info.manifestPath.parent with
    | none => Except.error LauncherErr.noParentDir
    | some base =>
      let entryPath := base ++ [info.manifest.entry]
      if fsExists fs entryPath then Except.ok entryPath
      else Except.error (LauncherErr.entryNotFound entryPath)

/-- A concrete host environment for evaluating the app commands. -/
def envEx : RunEnv :=
  { appDataDir := some "/data", tempDir := "/tmp", outDirId := "run-1", entryId := "run-1",
    nowMs := "1", historyWriteOk := true, configWriteOk := true, sidecarOk := true,
    spawnOk := true, childId := 7, killOk := true }

/-- App state with an empty child slot and empty history. -/
def stEmpty : AppState :=
  { childSlot := none, lastOutputDir := none, history := [], historyDisk := HistoryDisk.missing }

/-- App state whose child slot holds a live run. -/
def stBusy : AppState :=
  { childSlot := some 7, lastOutputDir := some "/data/runs/run-0", history := [],
    historyDisk := HistoryDisk.missing }

/-- A concrete history entry. -/
def e1 : HistoryEntry :=
  { id := "run-1", createdAt := "1", mode := "url", target := "https://example.com",
    outputDir := "/data/runs/run-1" }

/-- A concrete launcher environment (non-Windows, only `HOME` set). -/
def envC4 : LauncherEnv :=
  { isWindows := false, localAppData := none, xdgCacheHome := none,
    home := some ["home", "u"], tempDir := ["tmp"], currentExe := ["opt", "app", "signaler"] }

/-- A well-formed engine manifest document. -/
def manifestRaw : String :=
  "\x7b\"schemaVersion\":1,\"engineVersion\":\"1.2.3\",\"minNode\":\"20\",\"entry\":\"engine.js\",\"defaultOutputDirName\":\"signaler-report\"\x7d"

/-- A filesystem holding only the cached manifest. -/
def fsC4 : FS := fun p =>
  if p = ["home", "u", ".cache", "signaler", "engine", "engine.manifest.json"] then some manifestRaw
  else none

/-- A concrete resolved manifest info with schema version 1. -/
def infoC5 : EngineManifestInfo :=
  { manifestPath := ["e", "engine.manifest.json"],
    manifest := { schemaVersion := 1, engineVersion := "1.2.3", minNode := "20",
                  entry := "engine.js", defaultOutputDirName := "out" },
    fromCache := false, cacheDir := ["c"] }

/-- A filesystem holding only the entry file of `infoC5`. -/
def fsC5 : FS := fun p => if p = ["e", "engine.js"] then some "" else none

/-- App state with a non-empty in-memory history. -/
def stHist : AppState :=
  { childSlot := none, lastOutputDir := none, history := [e1],
    historyDisk := HistoryDisk.missing }

/-- Replacing an already-empty child slot by `none` is the identity. -/
theorem clearSlot_eq_self (st : AppState) (h : st.childSlot = none) :
    { st with childSlot := none } = st := by
  cases st; simp_all

/-- After `cancel_run` under a successful kill, the slot is empty. -/
theorem cancel_run_clears (env : RunEnv) (st : AppState) (hk : env.killOk = true) :
    (cancel_run env st).2.1.childSlot = none := by
  rcases h : st.childSlot with _ | c <;> simp [cancel_run, h, hk]

/-- C1: calling `start_run` while the guarded child-process slot is occupied
fails immediately with the "run already in progress" conflict error, leaves
the whole state (in particular the slot's contents) unchanged, and has no
external effect: nothing is spawned, no config is written, and no request
is queued. -/
theorem spec2proof_C1 (env : RunEnv) (st : AppState) (mode value : String) (c : Nat)
    (h : st.childSlot = some c) :
    start_run env st mode value =
      { result := Except.error "run already in progress", state := st, effects := noEffects } := by
  simp [start_run, h]

theorem spec2proof_C1_witness :
    stBusy.childSlot = some 7 ∧
      start_run envEx stBusy "url" "https://example.com" =
        { result := Except.error "run already in progress", state := stBusy,
          effects := noEffects } :=
  ⟨rfl, spec2proof_C1 envEx stBusy "url" "https://example.com" 7 rfl⟩

/-- C8: `cancel_run` with an occupied slot (and a successful kill) forcibly
terminates exactly the held child and clears the slot; with an empty slot it
is a no-op success; and repeating it is idempotent: a second `cancel_run`
succeeds and leaves the state where the first left it. -/
theorem spec2proof_C8 (env : RunEnv) (st : AppState) :
    (∀ c, st.childSlot = some c → env.killOk = true →
      cancel_run env st = (Except.ok (), { st with childSlot := none }, some c)) ∧
    (st.childSlot = none → cancel_run env st = (Except.ok (), st, none)) ∧
    (env.killOk = true →
      cancel_run env (cancel_run env st).2.1 =
        (Except.ok (), (cancel_run env st).2.1, none)) := by
  refine ⟨?_, ?_, ?_⟩
  · intro c hc hk
    simp [cancel_run, hc, hk]
  · intro hc
    simp [cancel_run, hc, clearSlot_eq_self st hc]
  · intro hk
    set s2 := (cancel_run env st).2.1 with hs2
    have h2 : s2.childSlot = none := cancel_run_clears env st hk
    simp [cancel_run, h2, clearSlot_eq_self s2 h2]

theorem spec2proof_C8_witness :
    stBusy.childSlot = some 7 ∧ envEx.killOk = true ∧
      cancel_run envEx stBusy = (Except.ok (), { stBusy with childSlot := none }, some 7) :=
  ⟨rfl, rfl, (spec2proof_C8 envEx stBusy).1 7 rfl rfl⟩

/-- C5: entry resolution fails with the unsupported-schema-version error for
every manifest whose `schemaVersion` differs from 1, regardless of the
filesystem; and for `schemaVersion = 1` it returns exactly the manifest's
own directory joined with the relative `entry` field when that path exists,
failing with an entry-not-found error when it does not. -/
theorem spec2proof_C5 (fs : FS) (info : EngineManifestInfo) (base : Fpath)
    (hbase : info.manifestPath.parent = some base) :
    (info.manifest.schemaVersion ≠ 1 →
      resolve_engine_entry_from_info fs info =
        Except.error (LauncherErr.unsupportedSchemaVersion info.manifest.schemaVersion)) ∧
    (info.manifest.schemaVersion = 1 →
      (fsExists fs (base ++ [info.manifest.entry]) = true →
        resolve_engine_entry_from_info fs info = Except.ok (base ++ [info.manifest.entry])) ∧
      (fsExists fs (base ++ [info.manifest.entry]) = false →
        resolve_engine_entry_from_info fs info =
          Except.error (LauncherErr.entryNotFound (base ++ [info.manifest.entry])))) := by
  constructor
  · intro h
    simp [resolve_engine_entry_from_info, h]
  · intro h1
    constructor <;> intro h2 <;>
      simp [resolve_engine_entry_from_info, h1, hbase, h2]

theorem spec2proof_C5_witness :
    resolve_engine_entry_from_info fsC5 infoC5 = Except.ok ["e", "engine.js"] :=
  ((spec2proof_C5 fsC5 infoC5 ["e"] rfl).2 rfl).1 rfl

/-- The history update equals taking the first 100 of the extended list. -/
theorem recordEntry_eq_take (l : List HistoryEntry) (e : HistoryEntry) :
    recordEntry l e = (e :: l).take 100 := by
  simp only [recordEntry]
  split
  · rfl
  · next h => exact (List.take_of_length_le (Nat.le_of_not_lt h)).symm

/-- The just-recorded entry sits at index 0. -/
theorem recordEntry_head (l : List HistoryEntry) (e : HistoryEntry) :
    (recordEntry l e).head? = some e := by
  rw [recordEntry_eq_take]
  rfl

/-- The updated history never exceeds 100 entries. -/
theorem recordEntry_length (l : List HistoryEntry) (e : HistoryEntry) :
    (recordEntry l e).length ≤ 100 := by
  rw [recordEntry_eq_take, List.length_take]
  exact min_le_left _ _

/-- Folding any non-empty sequence of recorded entries over any starting
list keeps the length within 100 and leaves the last-recorded entry at the
head. -/
theorem foldRecord (e : HistoryEntry) (es l : List HistoryEntry) :
    ((es.foldl recordEntry (recordEntry l e)).length ≤ 100) ∧
    ((es.foldl recordEntry (recordEntry l e)).head? = (e :: es).getLast?) := by
  induction es generalizing e l with
  | nil => exact ⟨recordEntry_length l e, by simp [recordEntry_head l e]⟩
  | cons e2 t ih =>
    have h := ih e2 (recordEntry l e)
    refine ⟨by simpa using h.1, ?_⟩
    rw [List.getLast?_cons_cons]
    simpa using h.2

/-- C6: `record` inserts at position 0 and truncates to 100, so the
in-memory list never exceeds 100 entries after any number of recorded runs
and the most recently recorded entry is always at index 0; a successful
`persist_history_entry` writes exactly the full updated list to the
history document. -/
theorem spec2proof_C6 (st : AppState) (e : HistoryEntry) (l es : List HistoryEntry) :
    (recordEntry l e).head? = some e ∧
    (recordEntry l e).length ≤ 100 ∧
    persist_history_entry true st e =
      (Except.ok (),
        { st with
            history := recordEntry st.history e
            historyDisk := HistoryDisk.stored (recordEntry st.history e) }) ∧
    (es ≠ [] →
      (es.foldl recordEntry l).length ≤ 100 ∧
      (es.foldl recordEntry l).head? = es.getLast?) := by
  refine ⟨recordEntry_head l e, recordEntry_length l e, by simp [persist_history_entry], ?_⟩
  intro h
  match es, h with
  | e2 :: t, _ =>
    have h2 := foldRecord e2 t l
    exact ⟨by simpa using h2.1, by simpa using h2.2⟩

theorem spec2proof_C6_witness :
    ([e1] : List HistoryEntry) ≠ [] ∧
    (([e1].foldl recordEntry []).length ≤ 100 ∧
      ([e1].foldl recordEntry []).head? = [e1].getLast?) :=
  ⟨by decide, (spec2proof_C6 stEmpty e1 [] [e1]).2.2.2 (by decide)⟩

/-- C7 (amended): `list_history` consults the disk on every call but adopts
the loaded value only when the guarded in-memory list is empty; once the
in-memory list is non-empty, every call returns it unchanged regardless of
the on-disk document; a missing or corrupt document loads as `none` (so
the adopted fallback is the empty list). -/
theorem spec2proof_C7 (st : AppState) :
    (st.history = [] →
      list_history st =
        ((load_history st).getD [], { st with history := (load_history st).getD [] })) ∧
    (st.history ≠ [] → ∀ d : HistoryDisk,
      list_history { st with historyDisk := d } = (st.history, { st with historyDisk := d })) ∧
    ((st.historyDisk = HistoryDisk.missing ∨ st.historyDisk = HistoryDisk.corrupt) →
      load_history st = none) := by
  refine ⟨?_, ?_, ?_⟩
  · intro h
    simp [list_history, h]
  · intro h d
    simp [list_history, h]
  · rintro (h | h) <;> simp [load_history, h]

theorem spec2proof_C7_witness :
    stHist.history ≠ [] ∧
    list_history { stHist with historyDisk := HistoryDisk.stored [] } =
      (stHist.history, { stHist with historyDisk := HistoryDisk.stored [] }) :=
  ⟨by decide, (spec2proof_C7 stHist).2.1 (by decide) (HistoryDisk.stored [])⟩

/-- C7 counterexample: with an initially absent history document, the first
`list_history` call returns the empty list; after the on-disk document
changes externally, a second call returns the new contents rather than the
previously returned (cached) value — so list() does observe external disk
changes. -/
theorem spec2proof_C7_counterexample :
    (list_history stEmpty).1 = [] ∧
    (list_history { (list_history stEmpty).2 with historyDisk := HistoryDisk.stored [e1] }).1
      = [e1] ∧
    ([e1] : List HistoryEntry) ≠ [] :=
  ⟨rfl, rfl, by decide⟩

/-- Only the termination event makes the reader loop break. -/
theorem processEvent_snd_false (e : CommandEvent) (h : e ≠ CommandEvent.terminated) :
    (processEvent e).2 = false := by
  cases e with
  | stdout b => rfl
  | stderr b => rfl
  | terminated => exact absurd rfl h
  | other => rfl

/-- The reader loop on a stream whose first termination event follows a
termination-free prefix: it emits the prefix's payloads, then the single
synthetic terminal event, and stops — events after the termination are
never processed. -/
theorem readerLoop_term (pre post : List CommandEvent)
    (h : ∀ e ∈ pre, e ≠ CommandEvent.terminated) :
    readerLoop (pre ++ CommandEvent.terminated :: post) =
      (pre.map (fun e => (processEvent e).1)).flatten ++ [terminatedEvent] := by
  induction pre with
  | nil => simp [readerLoop, processEvent]
  | cons e rest ih =>
    have he : e ≠ CommandEvent.terminated := h e (by simp)
    have hrest : ∀ x ∈ rest, x ≠ CommandEvent.terminated := fun x hx => h x (by simp [hx])
    simp [readerLoop, processEvent_snd_false e he, ih hrest]

/-- C2: when the channel delivers a termination event after a
termination-free prefix, the reader emits the prefix payloads followed by
exactly one final `launcher_terminated` synthetic event, ends the loop
(ignoring anything after the termination event), and — whatever the stream
was, including emission payloads being dropped by the sink — the task
always finishes with the guarded child slot cleared, so a subsequent
`start_run` can succeed. -/
theorem spec2proof_C2 (st : AppState) (pre post : List CommandEvent)
    (h1 : ∀ e ∈ pre, e ≠ CommandEvent.terminated)
    (h2 : ∀ e ∈ pre, terminatedEvent ∉ (processEvent e).1) :
    (readerTask st (pre ++ CommandEvent.terminated :: post)).1 =
      (pre.map (fun e => (processEvent e).1)).flatten ++ [terminatedEvent] ∧
    terminatedEvent ∉ (pre.map (fun e => (processEvent e).1)).flatten ∧
    (∀ events : List CommandEvent, (readerTask st events).2.childSlot = none) := by
  refine ⟨readerLoop_term pre post h1, ?_, fun _ => rfl⟩
  intro hmem
  rcases List.mem_flatten.1 hmem with ⟨l, hl, hm⟩
  rcases List.mem_map.1 hl with ⟨e, he, rfl⟩
  exact h2 e he hm

theorem spec2proof_C2_witness :
    (∀ e ∈ [CommandEvent.stdout "hello"], e ≠ CommandEvent.terminated) ∧
    (readerTask stEmpty
        ([CommandEvent.stdout "hello"] ++ CommandEvent.terminated :: [CommandEvent.stdout "late"])).1 =
      [Json.str "hello", terminatedEvent] ∧
    (readerTask stEmpty
        ([CommandEvent.stdout "hello"] ++ CommandEvent.terminated :: [CommandEvent.stdout "late"])).2.childSlot
      = none := by
  have hni : terminatedEvent ∉ [Json.str "hello"] := by
    intro hmem
    exact Json.noConfusion (List.mem_singleton.1 hmem)
  have h2 : ∀ e ∈ [CommandEvent.stdout "hello"], terminatedEvent ∉ (processEvent e).1 := by
    intro e he
    rw [List.mem_singleton] at he
    subst he
    exact hni
  have h := spec2proof_C2 stEmpty [CommandEvent.stdout "hello"] [CommandEvent.stdout "late"]
    (by intro e he; rw [List.mem_singleton] at he; subst he; intro hc; exact CommandEvent.noConfusion hc)
    h2
  exact ⟨fun e he => by rw [List.mem_singleton] at he; subst he; intro hc; exact CommandEvent.noConfusion hc,
    h.1.trans rfl, h.2.2 _⟩

/-- C3 (amended): every engine output line is trimmed first; a trimmed
non-empty stdout line is parsed as JSON and re-emitted verbatim as a
structured event on success or as the trimmed plain string on failure; a
trimmed non-empty stderr line is emitted as the trimmed plain string with
no parse attempt; lines that trim to empty on either stream produce no
event.  Concretely, the progress line is re-emitted as the identical
structured object and `not json` as the plain string. -/
theorem spec2proof_C3 :
    (∀ line j, rustTrim line ≠ "" → Json.parse (rustTrim line) = some j →
      processEvent (CommandEvent.stdout line) = ([j], false)) ∧
    (∀ line, rustTrim line ≠ "" → Json.parse (rustTrim line) = none →
      processEvent (CommandEvent.stdout line) = ([Json.str (rustTrim line)], false)) ∧
    (∀ line, rustTrim line ≠ "" →
      processEvent (CommandEvent.stderr line) = ([Json.str (rustTrim line)], false)) ∧
    (∀ line, rustTrim line = "" →
      processEvent (CommandEvent.stdout line) = ([], false) ∧
      processEvent (CommandEvent.stderr line) = ([], false)) ∧
    processEvent (CommandEvent.stdout "\x7b\"type\":\"progress\",\"pct\":50\x7d") =
      ([Json.obj [("type", Json.str "progress"), ("pct", Json.num 50)]], false) ∧
    processEvent (CommandEvent.stdout "not json") = ([Json.str "not json"], false) := by
  refine ⟨?_, ?_, ?_, ?_, rfl, rfl⟩
  · intro line j h1 h2
    simp only [processEvent]
    rw [if_neg h1, h2]
  · intro line h1 h2
    simp only [processEvent]
    rw [if_neg h1, h2]
  · intro line h1
    simp only [processEvent]
    rw [if_neg h1]
  · intro line h1
    constructor <;> (simp only [processEvent]; rw [if_pos h1])

theorem spec2proof_C3_witness :
    rustTrim "  warning  " ≠ "" ∧
    processEvent (CommandEvent.stderr "  warning  ") = ([Json.str "warning"], false) := by
  refine ⟨by decide, ?_⟩
  have h := spec2proof_C3.2.2.1 "  warning  " (by decide)
  exact h.trans rfl

/-- C3 counterexample: a line that is empty after trimming produces no
event on either stream — in particular the empty stderr line is not
emitted, and the whitespace-only stdout line is neither parsed nor
emitted. -/
theorem spec2proof_C3_counterexample :
    processEvent (CommandEvent.stderr "") = ([], false) ∧
    processEvent (CommandEvent.stdout " ") = ([], false) :=
  ⟨rfl, rfl⟩

/-- C4: manifest resolution tries exactly the cached path, then the file
next to the launcher executable, then the same name one directory above,
first match winning: when the cached candidate exists, the result is a
function of that file alone (later candidates are never consulted, and a
different filesystem agreeing on that file resolves identically); a
malformed existing earlier candidate is a hard parse error, not a
fall-through; and when no candidate exists, resolution fails with the
not-found error naming the searched path next to the launcher. -/
theorem spec2proof_C4 (env : LauncherEnv) (fs : FS) (exeDir : Fpath)
    (hexe : env.currentExe.parent = some exeDir) :
    (fsExists fs (resolve_cached_engine_manifest_path env) = true →
      resolve_engine_manifest_info env fs =
        (read_engine_manifest fs (resolve_cached_engine_manifest_path env)).map
          (fun m => { manifestPath := resolve_cached_engine_manifest_path env, manifest := m,
                      fromCache := true, cacheDir := resolve_cache_dir env })) ∧
    (∀ raw, fs (resolve_cached_engine_manifest_path env) = some raw → parseManifest raw = none →
      resolve_engine_manifest_info env fs =
        Except.error (LauncherErr.parseError (resolve_cached_engine_manifest_path env))) ∧
    (∀ fs2 : FS, fsExists fs (resolve_cached_engine_manifest_path env) = true →
      fs2 (resolve_cached_engine_manifest_path env) = fs (resolve_cached_engine_manifest_path env) →
      resolve_engine_manifest_info env fs2 = resolve_engine_manifest_info env fs) ∧
    (fs (resolve_cached_engine_manifest_path env) = none →
      fsExists fs (exeDir ++ ["engine.manifest.json"]) = true →
      resolve_engine_manifest_info env fs =
        (read_engine_manifest fs (exeDir ++ ["engine.manifest.json"])).map
          (fun m => { manifestPath := exeDir ++ ["engine.manifest.json"], manifest := m,
                      fromCache := false, cacheDir := resolve_cache_dir env })) ∧
    (∀ grandDir, fs (resolve_cached_engine_manifest_path env) = none →
      fs (exeDir ++ ["engine.manifest.json"]) = none →
      exeDir.parent = some grandDir →
      fsExists fs (grandDir ++ ["engine.manifest.json"]) = true →
      resolve_engine_manifest_info env fs =
        (read_engine_manifest fs (grandDir ++ ["engine.manifest.json"])).map
          (fun m => { manifestPath := grandDir ++ ["engine.manifest.json"], manifest := m,
                      fromCache := false, cacheDir := resolve_cache_dir env })) ∧
    (fs (resolve_cached_engine_manifest_path env) = none →
      fs (exeDir ++ ["engine.manifest.json"]) = none →
      (∀ grandDir, exeDir.parent = some grandDir →
        fs (grandDir ++ ["engine.manifest.json"]) = none) →
      resolve_engine_manifest_info env fs =
        Except.error (LauncherErr.notFound (exeDir ++ ["engine.manifest.json"]))) := by
  refine ⟨?_, ?_, ?_, ?_, ?_, ?_⟩
  · intro h
    simp [resolve_engine_manifest_info, h]
  · intro raw h hp
    have h1 : fsExists fs (resolve_cached_engine_manifest_path env) = true := by
      simp [fsExists, h]
    simp [resolve_engine_manifest_info, h1, read_engine_manifest, h, hp, Except.map]
  · intro fs2 h1 h2
    have h1' : fsExists fs2 (resolve_cached_engine_manifest_path env) = true := by
      unfold fsExists at h1 ⊢
      rw [h2]
      exact h1
    have e1 : read_engine_manifest fs2 (resolve_cached_engine_manifest_path env) =
        read_engine_manifest fs (resolve_cached_engine_manifest_path env) := by
      unfold read_engine_manifest
      rw [h2]
    simp only [resolve_engine_manifest_info, h1', h1, if_true, e1]
  · intro h1 h2
    have h2b : (fs (exeDir ++ ["engine.manifest.json"])).isSome = true := h2
    simp [resolve_engine_manifest_info, fsExists, h1, hexe, h2b]
  · intro grandDir h1 h2 hgp h3
    have h3b : (fs (grandDir ++ ["engine.manifest.json"])).isSome = true := h3
    simp [resolve_engine_manifest_info, fsExists, h1, hexe, h2, hgp, h3b]
  · intro h1 h2 h3
    rcases hp : exeDir.parent with _ | grandDir
    · simp [resolve_engine_manifest_info, fsExists, h1, hexe, h2, hp]
    · simp [resolve_engine_manifest_info, fsExists, h1, hexe, h2, hp, h3 grandDir hp]

theorem spec2proof_C4_witness :
    fsExists fsC4 (resolve_cached_engine_manifest_path envC4) = true ∧
    resolve_engine_manifest_info envC4 fsC4 = Except.ok
      { manifestPath := ["home", "u", ".cache", "signaler", "engine", "engine.manifest.json"],
        manifest := { schemaVersion := 1, engineVersion := "1.2.3", minNode := "20",
                      entry := "engine.js", defaultOutputDirName := "signaler-report" },
        fromCache := true, cacheDir := ["home", "u", ".cache", "signaler"] } := by
  refine ⟨rfl, ?_⟩
  have h := (spec2proof_C4 envC4 fsC4 ["opt", "app"] rfl).1 rfl
  exact h.trans rfl

/-- C9 (amended): for every successful `start_run`, the argument vector of
the launched sidecar starts with the `run` subcommand token, followed by
the mode-specific tokens: `run folder --engine-json --output-dir <dir> --
--root <target>` in folder mode, and `run audit --engine-json --output-dir
<dir> -- --config <configPath>` otherwise, with no other tokens. -/
theorem spec2proof_C9 (env : RunEnv) (st : AppState) (mode value : String)
    (hslot : st.childSlot = none) (hh : env.historyWriteOk = true)
    (hc : env.configWriteOk = true) (hsc : env.sidecarOk = true) (hsp : env.spawnOk = true) :
    (start_run env st mode value).effects.spawned =
      some (if mode = "folder" then
          ["run", "folder", "--engine-json", "--output-dir", resolve_default_output_dir env,
           "--", "--root", value]
        else
          ["run", "audit", "--engine-json", "--output-dir", resolve_default_output_dir env,
           "--", "--config", resolve_default_output_dir env ++ "/apex.config.json"]) := by
  by_cases hmode : mode = "folder" <;>
    simp [start_run, hslot, hmode, persist_history_entry, hh, hc, spawnPhase, hsc, hsp]

theorem spec2proof_C9_witness :
    (start_run envEx stEmpty "url" "https://example.com").effects.spawned =
      some ["run", "audit", "--engine-json", "--output-dir", "/data/runs/run-1", "--",
            "--config", "/data/runs/run-1/apex.config.json"] := by
  have h := spec2proof_C9 envEx stEmpty "url" "https://example.com" rfl rfl rfl rfl rfl
  exact h.trans (by decide)

/-- C9 counterexample: on a concrete successful folder-mode run the spawned
argument vector carries a leading `run` token, so it is not the claimed
vector beginning directly with `folder`. -/
theorem spec2proof_C9_counterexample :
    (start_run envEx stEmpty "folder" "T").effects.spawned =
      some ["run", "folder", "--engine-json", "--output-dir", "/data/runs/run-1", "--",
            "--root", "T"] ∧
    (start_run envEx stEmpty "folder" "T").effects.spawned ≠
      some ["folder", "--engine-json", "--output-dir", "/data/runs/run-1", "--",
            "--root", "T"] := by
  exact ⟨by decide, by decide⟩

/-- C10: every `start_run` whose mode is any string other than `folder` —
the empty string or an arbitrary word included — is treated as a url-mode
run: the url-mode configuration is synthesized from the target value at
`<outputDir>/apex.config.json`, the `audit` argument vector is built, and
no validation rejects the unknown mode (the call succeeds). -/
theorem spec2proof_C10 (env : RunEnv) (st : AppState) (mode value : String)
    (hmode : mode ≠ "folder") (hslot : st.childSlot = none)
    (hh : env.historyWriteOk = true) (hc : env.configWriteOk = true)
    (hsc : env.sidecarOk = true) (hsp : env.spawnOk = true) :
    (start_run env st mode value).result =
      Except.ok { outputDir := resolve_default_output_dir env } ∧
    (start_run env st mode value).effects.configWritten =
      some (resolve_default_output_dir env ++ "/apex.config.json", apexConfigFor value) ∧
    (start_run env st mode value).effects.spawned =
      some ["run", "audit", "--engine-json", "--output-dir", resolve_default_output_dir env,
            "--", "--config", resolve_default_output_dir env ++ "/apex.config.json"] := by
  refine ⟨?_, ?_, ?_⟩ <;>
    simp [start_run, hslot, hmode, persist_history_entry, hh, hc, spawnPhase, hsc, hsp]

theorem spec2proof_C10_witness :
    ("" : String) ≠ "folder" ∧
    (start_run envEx stEmpty "" "https://example.com").effects.configWritten =
      some ("/data/runs/run-1/apex.config.json", apexConfigFor "https://example.com") := by
  refine ⟨by decide, ?_⟩
  have h := (spec2proof_C10 envEx stEmpty "" "https://example.com"
    (by decide) rfl rfl rfl rfl rfl).2.1
  exact h.trans (by decide)
